import Mathlib

/-!
Verification of the device-state synchronization core of the
`mindor_cloud` Home Assistant integration, as a shallow embedding of
the Python sources in Lean 4.

Time instants, durations and power values are modelled as rationals
(`ℚ`); Python dicts keyed by entity-id are modelled as functions with
the dict's default value; Python lists of `{act, val}` dicts are
modelled as `List ActEntry`.  Each definition's doc comment names the
Python function it embeds.
-/

namespace MindorCloud

/-! ## WebSocket reconnect counter (`websocket_client.py`) -/

/-- `MindorWebSocketClient.max_connect_attempts` (set to 30 in
`__init__`). -/
def maxConnectAttempts : Nat := 30

/-- `MindorWebSocketClient._on_websocket_error`, restricted to its
effect on `connect_count` and on whether a delayed reconnect task is
scheduled.  The source first checks `connect_count > max_connect_attempts`
and returns without scheduling when the check passes; otherwise it
increments `connect_count` and schedules the 3-second delayed
reconnect.  Returns the new `connect_count` and whether a reconnect
was scheduled. -/
def onWebsocketError (connectCount : Nat) : Nat × Bool :=
  if connectCount > maxConnectAttempts then (connectCount, false)
  else (connectCount + 1, true)

/-- `connect_count` after `n` consecutive failed connect attempts,
starting from a fresh (or freshly-opened, since `_on_websocket_open`
resets the counter to 0) client. -/
def connectCountAfter : Nat → Nat
  | 0 => 0
  | n + 1 => (onWebsocketError (connectCountAfter n)).1

/-- Whether failure number `n + 1` (the failure arriving after `n`
earlier consecutive failures) schedules a delayed reconnect, i.e.
whether attempt number `n + 2` will occur. -/
def schedulesAfter (n : Nat) : Bool :=
  (onWebsocketError (connectCountAfter n)).2

/-! ## act_status upserts (`coordinator.py`) -/

/-- One element of a device's `device_act_status` list. -/
structure ActEntry where
  act : String
  val : String
deriving DecidableEq, Repr

/-- `MindorDataUpdateCoordinator._update_act_status`: scan the list for
the first entry whose `act` equals `act_name` and replace its `val`;
if none is found, append a new entry. -/
def updateActStatus : List ActEntry → String → String → List ActEntry
  | [], actName, newValue => [⟨actName, newValue⟩]
  | e :: rest, actName, newValue =>
      if e.act = actName then ⟨e.act, newValue⟩ :: rest
      else e :: updateActStatus rest actName newValue

/-- Apply a sequence of `(act, val)` upserts to an `act_status` list,
each via `_update_act_status`, in order. -/
def applyUpserts (init : List ActEntry) (ups : List (String × String)) :
    List ActEntry :=
  ups.foldl (fun acc p => updateActStatus acc p.1 p.2) init

/-- The value of the last upsert in `ups` whose act equals `a`, if any. -/
def lastVal (ups : List (String × String)) (a : String) : Option String :=
  ups.foldl (fun acc p => if p.1 = a then some p.2 else acc) none

/-- The `val` of the first entry with the given `act`, mirroring the
read loops in `sensor.py` (`native_value` scans `device_act_status`
for the first matching item). -/
def findVal (l : List ActEntry) (a : String) : Option String :=
  Option.map ActEntry.val (l.find? (fun e => e.act = a))

/-! ## Push-frame reduction (`coordinator.py`) -/

/-- The fields of one device record used by
`_update_device_from_websocket` and by the presentation entities. -/
structure DeviceRecord where
  id : String
  device_id : String
  l1_state : Bool
  online : Bool
  device_act_status : List ActEntry
deriving DecidableEq, Repr

/-- The fields of an inbound nested device message read by
`_update_device_from_websocket`: `device_id`, the `act_arr` list, and
the optional `type` / `data` fields used for online status. -/
structure WebsocketMsg where
  device_id : String
  act_arr : List ActEntry
  typ : Option String
  data : Option String
deriving DecidableEq, Repr

/-- The per-`act` dispatch inside `_update_device_from_websocket`'s
`for act in websocket_msg["act_arr"]` loop: `source` sets `l1_state`
to `val != "off"` (and does not touch `device_act_status`); `power`,
`thermoregulation`, `mode`, `airSwing`, `windGear` and `On` upsert the
pair into `device_act_status` via `_update_act_status`; any other act
name matches no branch of the `elif` chain and leaves the record
unchanged. -/
def processAct (d : DeviceRecord) (a : ActEntry) : DeviceRecord :=
  if a.act = "source" then { d with l1_state := a.val != "off" }
  else if a.act = "power" then
    { d with device_act_status := updateActStatus d.device_act_status "power" a.val }
  else if a.act = "thermoregulation" then
    { d with device_act_status := updateActStatus d.device_act_status "thermoregulation" a.val }
  else if a.act = "mode" then
    { d with device_act_status := updateActStatus d.device_act_status "mode" a.val }
  else if a.act = "airSwing" then
    { d with device_act_status := updateActStatus d.device_act_status "airSwing" a.val }
  else if a.act = "windGear" then
    { d with device_act_status := updateActStatus d.device_act_status "windGear" a.val }
  else if a.act = "On" then
    { d with device_act_status := updateActStatus d.device_act_status "On" a.val }
  else d

/-- The whole `act_arr` loop of `_update_device_from_websocket`. -/
def processActArr (d : DeviceRecord) (arr : List ActEntry) : DeviceRecord :=
  arr.foldl processAct d

/-- The act names that `_update_device_from_websocket` upserts into
`device_act_status` (every `elif` branch that calls
`_update_act_status`). -/
def upsertActNames : List String :=
  ["power", "thermoregulation", "mode", "airSwing", "windGear", "On"]

/-- The per-device body of `_update_device_from_websocket` once the
matching record is found: run the `act_arr` loop, then, when the
message's `type` is `"status"`, set `online` to whether `data` equals
`"online"`. -/
def applyMsg (d : DeviceRecord) (msg : WebsocketMsg) : DeviceRecord :=
  let d1 := processActArr d msg.act_arr
  if msg.typ = some "status" then { d1 with online := msg.data = some "online" }
  else d1

/-- `MindorDataUpdateCoordinator._update_device_from_websocket`: find
the first device whose `device_id` or `id` equals the message's
`device_id`, apply the update to it, and stop (the loop `break`s after
the first match); a message matching no device is a no-op. -/
def updateDeviceFromWebsocket :
    List DeviceRecord → WebsocketMsg → List DeviceRecord
  | [], _ => []
  | d :: rest, msg =>
      if d.device_id = msg.device_id ∨ d.id = msg.device_id then
        applyMsg d msg :: rest
      else d :: updateDeviceFromWebsocket rest msg

/-! ## Energy accumulation (`sensor.py`, `MindorTodayEnergySensor`)

`MindorMonthEnergySensor._calculate_energy_increment` and
`_check_and_reset_monthly` are textually identical to the daily
variants modulo the field names (`month_energy` / `last_reset_month`,
with the period key `"YYYY-MM"` instead of the ISO date); the
embedding below models the daily sensor and, through it, the shared
sampling algorithm. -/

/-- The mutable state of one `MindorTodayEnergySensor`:
`_energy_data["today_energy"]`, `_energy_data["last_reset_date"]`,
`_last_power` and `_last_update_time` (the latter as seconds on the
rational time axis). -/
structure TodayEnergyState where
  today_energy : ℚ
  last_reset_date : String
  last_power : Option ℚ
  last_update_time : Option ℚ
deriving DecidableEq, Repr

/-- `MindorTodayEnergySensor._calculate_energy_increment`: when either
`_last_power` or `_last_update_time` is `None`, store the sample and
return an increment of `0.0`; otherwise return the trapezoidal
increment `((last_power + current_power) / 2) * elapsed_hours / 1000`
and store the new sample and time. -/
def calculateEnergyIncrement (s : TodayEnergyState)
    (currentPower now : ℚ) : ℚ × TodayEnergyState :=
  match s.last_power, s.last_update_time with
  | some lp, some lt =>
      let timeDiffHours := (now - lt) / 3600
      let avgPower := (lp + currentPower) / 2
      let energyIncrement := avgPower * timeDiffHours / 1000
      (energyIncrement,
       { s with last_power := some currentPower, last_update_time := some now })
  | _, _ =>
      (0, { s with last_power := some currentPower, last_update_time := some now })

/-- `MindorTodayEnergySensor._check_and_reset_daily`: when the stored
`last_reset_date` differs from the current date, zero `today_energy`
and store the current date; otherwise leave the data unchanged. -/
def checkAndResetDaily (s : TodayEnergyState) (currentDate : String) :
    TodayEnergyState :=
  if s.last_reset_date ≠ currentDate then
    { s with today_energy := 0, last_reset_date := currentDate }
  else s

/-- The state transition of one `MindorTodayEnergySensor.native_value`
read: first `_check_and_reset_daily`, then, when a current power value
was found in `device_act_status`, `_calculate_energy_increment`, whose
increment is added to `today_energy` only when strictly positive (the
stored sample and time are updated either way). -/
def nativeValueStep (s : TodayEnergyState) (currentDate : String)
    (currentPower : Option ℚ) (now : ℚ) : TodayEnergyState :=
  let s1 := checkAndResetDaily s currentDate
  match currentPower with
  | none => s1
  | some p =>
      let r := calculateEnergyIncrement s1 p now
      if r.1 > 0 then { r.2 with today_energy := r.2.today_energy + r.1 }
      else r.2

/-! ## Command debouncing (`utils.py`) -/

/-- `CommandDebouncer`: `interval` plus the two per-entity dicts,
modelled as total functions realizing the dict reads
`self._last_command_time.get(entity_id, 0)` and
`self._is_processing.get(entity_id, False)`. -/
structure CommandDebouncer where
  interval : ℚ
  last_command_time : String → ℚ
  is_processing : String → Bool

/-- `CommandDebouncer.__init__`: empty dicts, so every entity reads
the defaults `0` and `False`. -/
def mkCommandDebouncer (interval : ℚ) : CommandDebouncer :=
  ⟨interval, fun _ => 0, fun _ => false⟩

/-- `CommandDebouncer.can_execute_command`: reject when the entity is
in flight, reject when less than `interval` has elapsed since the
entity's last command start, otherwise accept. -/
def canExecuteCommand (d : CommandDebouncer) (entityId : String)
    (now : ℚ) : Bool :=
  let lastTime := d.last_command_time entityId
  let isProcessing := d.is_processing entityId
  if isProcessing then false
  else if now - lastTime < d.interval then false
  else true

/-- `CommandDebouncer.mark_command_start`: record the start time and
set the in-flight flag for the entity. -/
def markCommandStart (d : CommandDebouncer) (entityId : String)
    (now : ℚ) : CommandDebouncer :=
  { d with
    last_command_time := fun e =>
      if e = entityId then now else d.last_command_time e,
    is_processing := fun e =>
      if e = entityId then true else d.is_processing e }

/-- `CommandDebouncer.mark_command_end`: clear the in-flight flag. -/
def markCommandEnd (d : CommandDebouncer) (entityId : String) :
    CommandDebouncer :=
  { d with
    is_processing := fun e =>
      if e = entityId then false else d.is_processing e }

/-- The acquire sequence of the `debounce_command` wrapper in
`utils.py`: `can_execute_command` followed, on success, by
`mark_command_start` (the spec's `tryAcquire`). -/
def tryAcquire (d : CommandDebouncer) (entityId : String) (now : ℚ) :
    Bool × CommandDebouncer :=
  if canExecuteCommand d entityId now then
    (true, markCommandStart d entityId now)
  else (false, d)

/-- `_global_debouncer = CommandDebouncer()`: the module-level
singleton, built with the constructor's default `interval = 0.3`. -/
def globalDebouncer : CommandDebouncer := mkCommandDebouncer (3 / 10)

/-- The debouncer chosen by the `debounce_command(interval, use_global)`
decorator: `_global_debouncer if use_global else CommandDebouncer(interval)`. -/
def debounceCommandDebouncer (interval : ℚ) (useGlobal : Bool) :
    CommandDebouncer :=
  if useGlobal then globalDebouncer else mkCommandDebouncer interval

/-- The debouncer gating `MindorSocketEntity.async_turn_on` /
`async_turn_off`, decorated `@debounce_command(interval=1.0)` with the
default `use_global=True`. -/
def switchTurnOnDebouncer : CommandDebouncer :=
  debounceCommandDebouncer 1 true

/-! ## Optimistic switch reads (`switch.py`) -/

/-- The fallback branch of `MindorSocketEntity.is_on`: scan the
coordinator's device list for the entity's id and return that record's
`l1_state`; `False` when no record matches. -/
def canonicalL1 (devices : List DeviceRecord) (entityDeviceId : String) :
    Bool :=
  match devices.find? (fun d => d.id = entityDeviceId) with
  | some d => d.l1_state
  | none => false

/-- How the entity's `_device` dict relates to the coordinator store
list.  In `async_setup_entry` each entity binds `self._device =
device` where `device` is a dict held in `coordinator.data`, and
`_async_update_data` returns `self.devices`, so from setup until the
next REST refresh the entity's `_device` is the very dict that
`_update_device_from_websocket` mutates in place (`aliased`,
identified by its position in the store list); a REST refresh rebinds
`coordinator.data` to fresh dicts, after which the entity still holds
the old dict as a private snapshot (`detached`). -/
inductive DeviceBinding where
  | aliased (idx : Nat)
  | detached (snapshot : DeviceRecord)
deriving Repr

/-- The entity state read by `MindorSocketEntity.is_on`: the `_device`
binding and the optional `_last_command_time` attribute set by
`_send_command`. -/
structure SocketEntityState where
  device : DeviceBinding
  last_command_time : Option ℚ
deriving Repr

/-- The dict `self._device` currently denotes, given the coordinator
store.  An out-of-range aliased index cannot arise in the source (the
entity was built from an element of the list) and is totalized to
`none`. -/
def boundDevice (st : SocketEntityState) (store : List DeviceRecord) :
    Option DeviceRecord :=
  match st.device with
  | .aliased idx => store[idx]?
  | .detached snapshot => some snapshot

/-- The local read `self._device.get("l1_state", False)`. -/
def localL1 (st : SocketEntityState) (store : List DeviceRecord) : Bool :=
  match boundDevice st store with
  | some d => d.l1_state
  | none => false

/-- The local read `self._device.get("id")` (totalized to `""` for a
dangling alias). -/
def localId (st : SocketEntityState) (store : List DeviceRecord) : String :=
  match boundDevice st store with
  | some d => d.id
  | none => ""

/-- `MindorSocketEntity.is_on`: when `_last_command_time` is set and
less than 30 seconds old, return `self._device`'s `l1_state` — a read
that goes through to the coordinator store record while the binding is
aliased — and otherwise the store's canonical value for the entity's
id. -/
def isOnState (st : SocketEntityState) (store : List DeviceRecord)
    (now : ℚ) : Bool :=
  match st.last_command_time with
  | some t =>
      if now - t < 30 then localL1 st store
      else canonicalL1 store (localId st store)
  | none => canonicalL1 store (localId st store)

/-- The in-place write `device["l1_state"] = new_state` that
`_send_command` performs on the first coordinator record matching the
entity's id. -/
def setL1 : List DeviceRecord → String → Bool → List DeviceRecord
  | [], _, _ => []
  | d :: rest, i, b =>
      if d.id = i then { d with l1_state := b } :: rest
      else d :: setL1 rest i b

/-- The write `self._device["l1_state"] = new_state` performed by
`_send_command`: through an aliased binding it mutates the shared
store dict in place; through a detached binding it touches only the
entity's snapshot. -/
def writeLocalL1 (st : SocketEntityState) (store : List DeviceRecord)
    (b : Bool) : SocketEntityState × List DeviceRecord :=
  match st.device with
  | .aliased idx =>
      match store[idx]? with
      | some d => (st, store.set idx { d with l1_state := b })
      | none => (st, store)
  | .detached snapshot =>
      ({ st with device := .detached { snapshot with l1_state := b } },
       store)

/-- The optimistic tail of `MindorSocketEntity._send_command` on
`errcode == 0`: write `command == "on"` into `self._device`, then into
the first coordinator record carrying the entity's id, and record
`_last_command_time = time.time()`. -/
def sendCommandSuccessState (st : SocketEntityState)
    (store : List DeviceRecord) (command : String) (now : ℚ) :
    SocketEntityState × List DeviceRecord :=
  let newState := command == "on"
  let r := writeLocalL1 st store newState
  let store2 := setL1 r.2 (localId st store) newState
  ({ r.1 with last_command_time := some now }, store2)

/-! ## REST request signing (`request_config.py`, `switch.py`)

`hashlib.md5` is an external library collaborator; the embedding
abstracts it as an arbitrary function `md5Hex : String → String` and
verifies the payload the source feeds to it.  `random.choices` is
abstracted as an arbitrary index picker. -/

/-- `string.ascii_letters + string.digits`, the alphabet of
`RequestConfig.generate_random_string`. -/
def asciiLettersDigits : List Char :=
  "abcdefghijklmnopqrstuvwxyzABCDEFGHIJKLMNOPQRSTUVWXYZ0123456789".toList

/-- `RequestConfig.generate_random_string(length)`:
`random.choices(chars, k=length)`, with the random source abstracted
as an index picker `randPick` reduced modulo the alphabet size. -/
def generateRandomString (randPick : Nat → Nat) (length : Nat) : String :=
  String.mk ((List.range length).map
    (fun i => asciiLettersDigits.getD (randPick i % asciiLettersDigits.length) 'a'))

/-- `RequestConfig.get_opt()`: the ordered signing-parameter dict,
with the random nonce and the truncated unix timestamp
`int(time.time())` as parameters; `urlencode` and the header merge
stringify the `Timestamp` value, so it is carried as its decimal
string. -/
def getOpt (nonce : String) (timestamp : Nat) : List (String × String) :=
  [("AppId", "q8mziWq3zcgQLUh8"),
   ("Mode", "normal"),
   ("NonceStr", nonce),
   ("Timestamp", toString timestamp),
   ("key", "MjNTazzrYispfNu7yn")]

/-- Characters `urllib.parse.quote_plus` leaves unchanged (ASCII
letters and digits plus the default safe set). -/
def isUrlSafeChar (c : Char) : Bool :=
  c.isAlphanum || c = '_' || c = '.' || c = '-' || c = '~'

/-- Uppercase hexadecimal digit, for percent-encoding. -/
def hexDigit (n : Nat) : Char :=
  "0123456789ABCDEF".toList.getD n '0'

/-- `quote_plus` on one ASCII character: safe characters pass through,
a space becomes `+`, anything else is percent-encoded. -/
def percentEncodeChar (c : Char) : String :=
  if isUrlSafeChar c then String.mk [c]
  else if c = ' ' then "+"
  else "%" ++ String.mk [hexDigit (c.toNat / 16 % 16), hexDigit (c.toNat % 16)]

/-- `quote_plus` on an ASCII string. -/
def quotePlus (s : String) : String :=
  String.join (s.toList.map percentEncodeChar)

/-- `RequestConfig.object_to_query_string`: `urllib.parse.urlencode`,
which joins `quote_plus(k)=quote_plus(v)` pairs with `&` in dict
insertion order. -/
def objectToQueryString (obj : List (String × String)) : String :=
  String.intercalate "&" (obj.map (fun p => quotePlus p.1 ++ "=" ++ quotePlus p.2))

/-- `RequestConfig.generate_sign`: the MD5 hex digest (abstracted as
`md5Hex`) of the URL-encoded query string of `opt`. -/
def generateSign (md5Hex : String → String)
    (opt : List (String × String)) : String :=
  md5Hex (objectToQueryString opt)

/-- The `merged_headers` built by `MindorSocketEntity._send_command`
for the mutating `ctrl` POST: the base `Authorization` / `Sign` /
`Content-Type` headers with every stringified `opt` parameter
flattened in (the two key sets are disjoint, so the Python dict merge
is concatenation). -/
def ctrlHeaders (token sign : String) (opt : List (String × String)) :
    List (String × String) :=
  [("Authorization", token), ("Sign", sign),
   ("Content-Type", "application/json")] ++ opt

/-! ## Theorems: connection retry cap (C1) -/

/-- Closed form of the failure counter: it rises by one per failure
and sticks at 31, the first value above the cap. -/
theorem connectCountAfter_min (n : Nat) : connectCountAfter n = min n 31 := by
  induction n with
  | zero => rfl
  | succ n ih =>
      simp only [connectCountAfter, ih, onWebsocketError, maxConnectAttempts]
      split_ifs with h <;> dsimp only <;> omega

/-- Failure number `n + 1` schedules a reconnect exactly when at most
30 failures preceded it. -/
theorem schedulesAfter_iff (n : Nat) : schedulesAfter n = true ↔ n ≤ 30 := by
  simp only [schedulesAfter, connectCountAfter_min, onWebsocketError,
    maxConnectAttempts]
  split_ifs with h <;> simp <;> omega

/-- C1 counterexample: after 30 consecutive connect failures the
counter reads 30, and that 30th failure still schedules a delayed
reconnect, so the 31st connect attempt does occur — the claimed
fatal stop after 30 failures does not happen in
`_on_websocket_error`, whose `connect_count > 30` guard is checked
before the increment. -/
theorem connection_retry_cap_counterexample :
    connectCountAfter 30 = 30 ∧ schedulesAfter 29 = true := by
  exact ⟨rfl, rfl⟩

/-- C1 amended: failure `n + 1` schedules a reconnect iff `n ≤ 30`,
so failures 1 through 31 each schedule a retry and attempts continue
through the 32nd; the 32nd consecutive failure (`schedulesAfter 31`)
schedules nothing, so the 33rd attempt never occurs; and once
`connect_count` exceeds the cap of 30 the error handler returns
without incrementing or scheduling, so no further reconnect is ever
scheduled. -/
theorem connection_retry_cap_amended :
    (∀ n, schedulesAfter n = true ↔ n ≤ 30)
    ∧ schedulesAfter 31 = false
    ∧ (∀ c, maxConnectAttempts < c → onWebsocketError c = (c, false)) := by
  refine ⟨schedulesAfter_iff, rfl, fun c hc => ?_⟩
  simp [onWebsocketError, hc]

/-- Witness for the amended C1 theorem at concrete inputs. -/
theorem connection_retry_cap_amended_witness :
    schedulesAfter 29 = true ∧ onWebsocketError 31 = (31, false) :=
  ⟨(connection_retry_cap_amended.1 29).mpr (by decide),
   connection_retry_cap_amended.2.2 31 (by decide)⟩

/-! ## Theorems: act_status upserts (C2) -/

/-- After an upsert, the first entry for the upserted act carries the
new value. -/
theorem findVal_updateActStatus_self (l : List ActEntry) (a v : String) :
    findVal (updateActStatus l a v) a = some v := by
  induction l with
  | nil => simp [updateActStatus, findVal]
  | cons e rest ih =>
      by_cases h : e.act = a
      · simp [updateActStatus, h, findVal]
      · simpa [updateActStatus, h, findVal] using ih

/-- An upsert leaves the first-match lookup of every other act
unchanged. -/
theorem findVal_updateActStatus_other (l : List ActEntry) (a v b : String)
    (hb : b ≠ a) :
    findVal (updateActStatus l a v) b = findVal l b := by
  induction l with
  | nil => simp [updateActStatus, findVal, Ne.symm hb]
  | cons e rest ih =>
      by_cases h : e.act = a
      · have he : e.act ≠ b := by rw [h]; exact Ne.symm hb
        simp [updateActStatus, h, findVal, he, Ne.symm hb]
      · by_cases he : e.act = b
        · simp [updateActStatus, h, findVal, he, hb]
        · simpa [updateActStatus, h, findVal, he] using ih

/-- The act names after an upsert: unchanged when the act was already
present, otherwise with the new act appended. -/
theorem map_act_updateActStatus (l : List ActEntry) (a v : String) :
    (updateActStatus l a v).map ActEntry.act
      = if a ∈ l.map ActEntry.act then l.map ActEntry.act
        else l.map ActEntry.act ++ [a] := by
  induction l with
  | nil => simp [updateActStatus]
  | cons e rest ih =>
      by_cases h : e.act = a
      · simp [updateActStatus, h]
      · simp only [updateActStatus, if_neg h, List.map_cons, ih]
        by_cases h2 : a ∈ rest.map ActEntry.act
        · simp [h2, Ne.symm h]
        · simp [h2, Ne.symm h]

/-- Upserts preserve uniqueness of act names. -/
theorem nodup_updateActStatus {l : List ActEntry} (a v : String)
    (h : (l.map ActEntry.act).Nodup) :
    ((updateActStatus l a v).map ActEntry.act).Nodup := by
  rw [map_act_updateActStatus]
  by_cases hm : a ∈ l.map ActEntry.act
  · simpa [hm] using h
  · simp [hm, List.nodup_append, h]

/-- Unique act names bound the number of entries per act by one. -/
theorem count_le_one_of_nodup_map {l : List ActEntry}
    (h : (l.map ActEntry.act).Nodup) (a : String) :
    (l.filter (fun e => e.act = a)).length ≤ 1 := by
  induction l with
  | nil => simp
  | cons e rest ih =>
      rw [List.map_cons, List.nodup_cons] at h
      by_cases he : e.act = a
      · have hrest : rest.filter (fun e => decide (e.act = a)) = [] := by
          rw [List.filter_eq_nil_iff]
          intro x hx
          simp only [decide_eq_true_eq]
          intro hxa
          exact h.1 (by rw [he, ← hxa]; exact List.mem_map_of_mem _ hx)
        simp [List.filter_cons, he, hrest]
      · simpa [List.filter_cons, he] using ih h.2

/-- Folding one more upsert from the right. -/
theorem applyUpserts_append (init : List ActEntry)
    (ups : List (String × String)) (p : String × String) :
    applyUpserts init (ups ++ [p])
      = updateActStatus (applyUpserts init ups) p.1 p.2 := by
  simp [applyUpserts, List.foldl_append]

/-- The last upserted value for an act, after one more upsert. -/
theorem lastVal_append (ups : List (String × String)) (p : String × String)
    (a : String) :
    lastVal (ups ++ [p]) a = if p.1 = a then some p.2 else lastVal ups a := by
  simp [lastVal, List.foldl_append]

/-- C2: starting from an act_status list with pairwise-distinct act
names, any sequence of `_update_act_status` upserts keeps act names
pairwise distinct (hence at most one entry per distinct act), and the
lookup of any upserted act returns the value of its last upsert. -/
theorem act_status_upsert_last_write_wins (init : List ActEntry)
    (ups : List (String × String))
    (h : (init.map ActEntry.act).Nodup) :
    ((applyUpserts init ups).map ActEntry.act).Nodup
    ∧ (∀ a, ((applyUpserts init ups).filter (fun e => e.act = a)).length ≤ 1)
    ∧ (∀ a v, lastVal ups a = some v →
        findVal (applyUpserts init ups) a = some v) := by
  induction ups using List.reverseRecOn with
  | nil =>
      refine ⟨h, count_le_one_of_nodup_map h, fun a v hv => ?_⟩
      simp [lastVal] at hv
  | append_singleton ups p ih =>
      obtain ⟨ihN, _, ihL⟩ := ih
      have hN : ((applyUpserts init (ups ++ [p])).map ActEntry.act).Nodup := by
        rw [applyUpserts_append]
        exact nodup_updateActStatus _ _ ihN
      refine ⟨hN, count_le_one_of_nodup_map hN, fun a v hv => ?_⟩
      rw [lastVal_append] at hv
      rw [applyUpserts_append]
      by_cases hp : p.1 = a
      · rw [if_pos hp] at hv
        obtain rfl : p.2 = v := by injection hv
        rw [← hp]
        exact findVal_updateActStatus_self _ _ _
      · rw [if_neg hp] at hv
        rw [findVal_updateActStatus_other _ _ _ _ (fun hh => hp hh.symm)]
        exact ihL a v hv

/-- Witness for C2 at a concrete upsert sequence. -/
theorem act_status_upsert_last_write_wins_witness :
    findVal (applyUpserts [⟨"power", "5"⟩]
      [("power", "7"), ("mode", "01"), ("power", "9")]) "power" = some "9" :=
  (act_status_upsert_last_write_wins [⟨"power", "5"⟩]
    [("power", "7"), ("mode", "01"), ("power", "9")]
    (by decide)).2.2 "power" "9" (by decide)

/-! ## Theorems: push-frame act processing (C3) -/

/-- A stored device with an empty `device_act_status`, for the C3
counterexample. -/
def c3Device : DeviceRecord :=
  ⟨"d1", "dev1", false, true, []⟩

/-- A push message whose single `{act, val}` pair carries an act name
outside the well-known table, for the C3 counterexample. -/
def c3Msg : WebsocketMsg :=
  ⟨"dev1", [⟨"customAct", "42"⟩], none, none⟩

/-- C3 counterexample: a frame with a non-empty `act_arr` whose act
name `"customAct"` is not in the well-known table matches the stored
device yet leaves the device record — in particular its
`device_act_status` — completely unchanged: the pair is ignored, not
upserted. -/
theorem unknown_act_ignored_counterexample :
    updateDeviceFromWebsocket [c3Device] c3Msg = [c3Device]
    ∧ findVal (applyMsg c3Device c3Msg).device_act_status "customAct" = none := by
  exact ⟨rfl, rfl⟩

/-- C3 amended: only pairs whose act name is in the fixed table
`power`, `thermoregulation`, `mode`, `airSwing`, `windGear`, `On` are
upserted into `device_act_status` (leaving `l1_state` alone); a
`source` pair only derives `l1_state` as `val != "off"` and is not
upserted; a pair with any other act name matches no branch and leaves
the record unchanged. -/
theorem act_processing_amended :
    (∀ (d : DeviceRecord) (a : ActEntry), a.act ∈ upsertActNames →
        (processAct d a).device_act_status
            = updateActStatus d.device_act_status a.act a.val
        ∧ (processAct d a).l1_state = d.l1_state)
    ∧ (∀ (d : DeviceRecord) (a : ActEntry), a.act = "source" →
        (processAct d a).device_act_status = d.device_act_status
        ∧ (processAct d a).l1_state = (a.val != "off"))
    ∧ (∀ (d : DeviceRecord) (a : ActEntry),
        a.act ∉ upsertActNames → a.act ≠ "source" → processAct d a = d) := by
  refine ⟨fun d a h => ?_, fun d a h => ?_, fun d a h1 h2 => ?_⟩
  · simp only [upsertActNames, List.mem_cons, List.mem_singleton,
      List.not_mem_nil, or_false] at h
    rcases h with h | h | h | h | h | h <;> rw [processAct, h] <;> simp
  · rw [processAct, h]
    simp
  · simp only [upsertActNames, List.mem_cons, List.mem_singleton,
      List.not_mem_nil, or_false, not_or] at h1
    obtain ⟨hp, ht, hm, ha, hw, hO⟩ := h1
    rw [processAct]
    simp [h2, hp, ht, hm, ha, hw, hO]

/-- Witness for the amended C3 theorem at concrete inputs: a `power`
pair is upserted, a `source` pair only flips `l1_state`, and an
unknown pair is a no-op. -/
theorem act_processing_amended_witness :
    (processAct ⟨"d1", "dev1", false, true, []⟩
        ⟨"power", "15"⟩).device_act_status
      = updateActStatus [] "power" "15"
    ∧ (processAct ⟨"d1", "dev1", false, true, []⟩ ⟨"source", "on"⟩).l1_state
      = ("on" != "off")
    ∧ processAct ⟨"d1", "dev1", false, true, []⟩ ⟨"customAct", "42"⟩
      = ⟨"d1", "dev1", false, true, []⟩ :=
  ⟨(act_processing_amended.1 ⟨"d1", "dev1", false, true, []⟩
      ⟨"power", "15"⟩ (by decide)).1,
   (act_processing_amended.2.1 ⟨"d1", "dev1", false, true, []⟩
      ⟨"source", "on"⟩ rfl).2,
   act_processing_amended.2.2 ⟨"d1", "dev1", false, true, []⟩
      ⟨"customAct", "42"⟩ (by decide) (by decide)⟩

/-! ## Theorems: energy accumulation (C4, C5, C10) -/

/-- `_calculate_energy_increment` touches only the stored sample and
time, never the accumulated value or the period key. -/
theorem calculateEnergyIncrement_preserves (s : TodayEnergyState)
    (p now : ℚ) :
    (calculateEnergyIncrement s p now).2.today_energy = s.today_energy
    ∧ (calculateEnergyIncrement s p now).2.last_reset_date
        = s.last_reset_date := by
  rcases s with ⟨e, d, lp, lt⟩
  cases lp <;> cases lt <;> simp [calculateEnergyIncrement]

/-- `_calculate_energy_increment` always stores the new sample and
time. -/
theorem calculateEnergyIncrement_updates (s : TodayEnergyState)
    (p now : ℚ) :
    (calculateEnergyIncrement s p now).2.last_power = some p
    ∧ (calculateEnergyIncrement s p now).2.last_update_time = some now := by
  rcases s with ⟨e, d, lp, lt⟩
  cases lp <;> cases lt <;> simp [calculateEnergyIncrement]

/-- The increment on a non-first sample is the trapezoidal formula. -/
theorem calculateEnergyIncrement_formula (s : TodayEnergyState)
    (lp lt p now : ℚ) (h1 : s.last_power = some lp)
    (h2 : s.last_update_time = some lt) :
    (calculateEnergyIncrement s p now).1
      = (lp + p) / 2 * ((now - lt) / 3600) / 1000 := by
  rcases s with ⟨e, d, lp0, lt0⟩
  cases h1
  cases h2
  simp [calculateEnergyIncrement]

/-- C4: the very first sample (no stored `_last_power`) contributes a
zero increment and only stores the sample; every subsequent sample
yields the exact trapezoidal increment
`((last_power + current_power) / 2) * elapsed_hours / 1000` and, for
nonnegative powers and forward time, `native_value` adds exactly that
increment to the accumulated value while updating the stored sample
and time; in particular 100 W at `t = 0` followed by 200 W at
`t = 3600 s` yields exactly `0.15 kWh = 3/20`. -/
theorem energy_increment_trapezoidal :
    (∀ (s : TodayEnergyState) (p now : ℚ), s.last_power = none →
        (calculateEnergyIncrement s p now).1 = 0
        ∧ (calculateEnergyIncrement s p now).2.last_power = some p
        ∧ (calculateEnergyIncrement s p now).2.last_update_time = some now)
    ∧ (∀ (s : TodayEnergyState) (lp lt p now : ℚ),
        s.last_power = some lp → s.last_update_time = some lt →
        (calculateEnergyIncrement s p now).1
            = (lp + p) / 2 * ((now - lt) / 3600) / 1000
        ∧ (calculateEnergyIncrement s p now).2.last_power = some p
        ∧ (calculateEnergyIncrement s p now).2.last_update_time = some now)
    ∧ (∀ (s : TodayEnergyState) (lp lt p now : ℚ) (currentDate : String),
        s.last_power = some lp → s.last_update_time = some lt →
        s.last_reset_date = currentDate → 0 ≤ lp → 0 ≤ p → lt ≤ now →
        (nativeValueStep s currentDate (some p) now).today_energy
            = s.today_energy + (lp + p) / 2 * ((now - lt) / 3600) / 1000
        ∧ (nativeValueStep s currentDate (some p) now).last_power = some p
        ∧ (nativeValueStep s currentDate (some p) now).last_update_time
            = some now)
    ∧ (calculateEnergyIncrement
        (calculateEnergyIncrement ⟨0, "2024-01-01", none, none⟩ 100 0).2
        200 3600).1 = 3 / 20 := by
  refine ⟨fun s p now h => ?_, fun s lp lt p now h1 h2 => ?_,
    fun s lp lt p now currentDate h1 h2 hd hlp hp hle => ?_,
    by simp [calculateEnergyIncrement]; norm_num⟩
  · rcases s with ⟨e, d, lp0, lt0⟩
    cases h
    cases lt0 <;> simp [calculateEnergyIncrement]
  · exact ⟨calculateEnergyIncrement_formula s lp lt p now h1 h2,
      (calculateEnergyIncrement_updates s p now).1,
      (calculateEnergyIncrement_updates s p now).2⟩
  · have hreset : checkAndResetDaily s currentDate = s := by
      simp [checkAndResetDaily, hd]
    have hform := calculateEnergyIncrement_formula s lp lt p now h1 h2
    have hpos : 0 ≤ (calculateEnergyIncrement s p now).1 := by
      rw [hform]
      have h2p : 0 ≤ (lp + p) / 2 := by positivity
      have h3h : 0 ≤ (now - lt) / 3600 := by
        have : 0 ≤ now - lt := sub_nonneg.mpr hle
        positivity
      positivity
    rw [nativeValueStep]
    simp only [hreset]
    by_cases hgt : (calculateEnergyIncrement s p now).1 > 0
    · simp only [if_pos hgt]
      refine ⟨?_, (calculateEnergyIncrement_updates s p now).1,
        (calculateEnergyIncrement_updates s p now).2⟩
      rw [(calculateEnergyIncrement_preserves s p now).1, hform]
    · have hz : (calculateEnergyIncrement s p now).1 = 0 :=
        le_antisymm (not_lt.mp hgt) hpos
      simp only [if_neg hgt]
      refine ⟨?_, (calculateEnergyIncrement_updates s p now).1,
        (calculateEnergyIncrement_updates s p now).2⟩
      rw [(calculateEnergyIncrement_preserves s p now).1, ← hform, hz,
        add_zero]

/-- Witness for C4 at the spec's concrete inputs. -/
theorem energy_increment_trapezoidal_witness :
    (calculateEnergyIncrement ⟨0, "2024-01-01", none, none⟩ 100 0).1 = 0
    ∧ (calculateEnergyIncrement ⟨0, "2024-01-01", some 100, some 0⟩
        200 3600).1 = (100 + 200) / 2 * ((3600 - 0) / 3600) / 1000
    ∧ (nativeValueStep ⟨0, "2024-01-01", some 100, some 0⟩ "2024-01-01"
        (some 200) 3600).today_energy
        = 0 + (100 + 200) / 2 * ((3600 - 0) / 3600) / 1000 :=
  ⟨(energy_increment_trapezoidal.1 ⟨0, "2024-01-01", none, none⟩
      100 0 rfl).1,
   (energy_increment_trapezoidal.2.1 ⟨0, "2024-01-01", some 100, some 0⟩
      100 0 200 3600 rfl rfl).1,
   (energy_increment_trapezoidal.2.2.1 ⟨0, "2024-01-01", some 100, some 0⟩
      100 0 200 3600 "2024-01-01" rfl rfl rfl (by decide) (by decide)
      (by decide)).1⟩

/-- C5: when the stored period key differs from the current one,
`_check_and_reset_daily` zeroes the accumulated value and stores the
current key, and this happens before the sample is integrated — the
accumulated value after the read is exactly the (positively-gated)
fresh increment, with none of the old total surviving; when the keys
match, nothing is reset and the old total is kept. -/
theorem energy_period_rollover_reset :
    (∀ (s : TodayEnergyState) (key : String), s.last_reset_date ≠ key →
        checkAndResetDaily s key
          = { s with today_energy := 0, last_reset_date := key })
    ∧ (∀ (s : TodayEnergyState) (key : String), s.last_reset_date = key →
        checkAndResetDaily s key = s)
    ∧ (∀ (s : TodayEnergyState) (key : String) (p now : ℚ),
        s.last_reset_date ≠ key →
        (nativeValueStep s key (some p) now).last_reset_date = key
        ∧ (nativeValueStep s key (some p) now).today_energy
            = (if 0 < (calculateEnergyIncrement (checkAndResetDaily s key)
                  p now).1
               then (calculateEnergyIncrement (checkAndResetDaily s key)
                  p now).1
               else 0))
    ∧ (∀ (s : TodayEnergyState) (key : String) (p now : ℚ),
        s.last_reset_date = key →
        (nativeValueStep s key (some p) now).today_energy
            = s.today_energy
              + (if 0 < (calculateEnergyIncrement s p now).1
                 then (calculateEnergyIncrement s p now).1 else 0)) := by
  refine ⟨fun s key h => by simp [checkAndResetDaily, h],
    fun s key h => by simp [checkAndResetDaily, h],
    fun s key p now h => ?_, fun s key p now h => ?_⟩
  · have hkey : (checkAndResetDaily s key).last_reset_date = key := by
      simp [checkAndResetDaily, h]
    have hzero : (checkAndResetDaily s key).today_energy = 0 := by
      simp [checkAndResetDaily, h]
    rw [nativeValueStep]
    by_cases hgt : (calculateEnergyIncrement (checkAndResetDaily s key) p now).1 > 0
    · simp only [if_pos hgt]
      constructor
      · rw [(calculateEnergyIncrement_preserves _ p now).2, hkey]
      · rw [(calculateEnergyIncrement_preserves _ p now).1, hzero, zero_add]
    · simp only [if_neg hgt]
      constructor
      · rw [(calculateEnergyIncrement_preserves _ p now).2, hkey]
      · rw [(calculateEnergyIncrement_preserves _ p now).1, hzero]
  · have hsame : checkAndResetDaily s key = s := by
      simp [checkAndResetDaily, h]
    rw [nativeValueStep]
    simp only [hsame]
    by_cases hgt : (calculateEnergyIncrement s p now).1 > 0
    · simp only [if_pos hgt]
      rw [(calculateEnergyIncrement_preserves s p now).1]
    · simp only [if_neg hgt]
      rw [(calculateEnergyIncrement_preserves s p now).1, add_zero]

/-- Witness for C5: a record keyed `"2024-01-01"` read on
`"2024-01-02"` is reset before the new increment is integrated, and a
matching-key read keeps the old total. -/
theorem energy_period_rollover_reset_witness :
    checkAndResetDaily ⟨5, "2024-01-01", some 100, some 0⟩ "2024-01-02"
      = ⟨0, "2024-01-02", some 100, some 0⟩
    ∧ (nativeValueStep ⟨5, "2024-01-01", some 100, some 0⟩ "2024-01-02"
        (some 200) 3600).today_energy
      = (if 0 < (calculateEnergyIncrement
            (checkAndResetDaily ⟨5, "2024-01-01", some 100, some 0⟩
              "2024-01-02") 200 3600).1
         then (calculateEnergyIncrement
            (checkAndResetDaily ⟨5, "2024-01-01", some 100, some 0⟩
              "2024-01-02") 200 3600).1
         else 0)
    ∧ checkAndResetDaily ⟨5, "2024-01-01", some 100, some 0⟩ "2024-01-01"
      = ⟨5, "2024-01-01", some 100, some 0⟩ :=
  ⟨energy_period_rollover_reset.1 ⟨5, "2024-01-01", some 100, some 0⟩
      "2024-01-02" (by decide),
   (energy_period_rollover_reset.2.2.1 ⟨5, "2024-01-01", some 100, some 0⟩
      "2024-01-02" 200 3600 (by decide)).2,
   energy_period_rollover_reset.2.1 ⟨5, "2024-01-01", some 100, some 0⟩
      "2024-01-01" rfl⟩

/-- C10: a period rollover resets only the accumulated value and the
period key — the stored `_last_power` and `_last_update_time` are
untouched — so the first post-rollover sample still integrates over
the whole interval since the last pre-rollover sample, and its
contribution is strictly positive whenever both powers are positive
and time has elapsed. -/
theorem rollover_preserves_last_sample :
    (∀ (s : TodayEnergyState) (key : String),
        (checkAndResetDaily s key).last_power = s.last_power
        ∧ (checkAndResetDaily s key).last_update_time = s.last_update_time)
    ∧ (∀ (s : TodayEnergyState) (key : String) (lp lt p now : ℚ),
        s.last_reset_date ≠ key → s.last_power = some lp →
        s.last_update_time = some lt → 0 < lp → 0 < p → lt < now →
        (nativeValueStep s key (some p) now).today_energy
            = (lp + p) / 2 * ((now - lt) / 3600) / 1000
        ∧ 0 < (nativeValueStep s key (some p) now).today_energy) := by
  constructor
  · intro s key
    rw [checkAndResetDaily]
    split_ifs <;> simp
  · intro s key lp lt p now hk h1 h2 hlp hp hlt
    have hres : checkAndResetDaily s key
        = { s with today_energy := 0, last_reset_date := key } := by
      simp [checkAndResetDaily, hk]
    have hform : (calculateEnergyIncrement (checkAndResetDaily s key)
        p now).1 = (lp + p) / 2 * ((now - lt) / 3600) / 1000 := by
      apply calculateEnergyIncrement_formula
      · rw [hres]; exact h1
      · rw [hres]; exact h2
    have hpos : 0 < (lp + p) / 2 * ((now - lt) / 3600) / 1000 := by
      have ha : 0 < (lp + p) / 2 := by positivity
      have hb : 0 < (now - lt) / 3600 := by
        have : 0 < now - lt := sub_pos.mpr hlt
        positivity
      positivity
    have hzero : (checkAndResetDaily s key).today_energy = 0 := by
      rw [hres]
    rw [nativeValueStep]
    have hgt : (calculateEnergyIncrement (checkAndResetDaily s key)
        p now).1 > 0 := by
      rw [hform]; exact hpos
    simp only [if_pos hgt]
    rw [(calculateEnergyIncrement_preserves _ p now).1, hzero, zero_add,
      hform]
    exact ⟨rfl, hpos⟩

/-- Witness for C10 at concrete inputs. -/
theorem rollover_preserves_last_sample_witness :
    (checkAndResetDaily ⟨5, "2024-01-01", some 100, some 0⟩
        "2024-01-02").last_power = some 100
    ∧ (nativeValueStep ⟨5, "2024-01-01", some 100, some 0⟩ "2024-01-02"
        (some 200) 3600).today_energy
      = (100 + 200) / 2 * ((3600 - 0) / 3600) / 1000 :=
  ⟨(rollover_preserves_last_sample.1 ⟨5, "2024-01-01", some 100, some 0⟩
      "2024-01-02").1,
   (rollover_preserves_last_sample.2 ⟨5, "2024-01-01", some 100, some 0⟩
      "2024-01-02" 100 0 200 3600 (by decide) rfl rfl (by decide)
      (by decide) (by decide)).1⟩

/-! ## Theorems: command gate (C6, C9) -/

/-- The acquire decision equals `can_execute_command`. -/
theorem tryAcquire_fst (d : CommandDebouncer) (e : String) (now : ℚ) :
    (tryAcquire d e now).1 = canExecuteCommand d e now := by
  rw [tryAcquire]
  by_cases h : canExecuteCommand d e now = true <;> simp [h]

/-- `can_execute_command` rejects exactly when the entity is in flight
or came too soon after its last command start. -/
theorem canExecuteCommand_eq_false_iff (d : CommandDebouncer) (e : String)
    (now : ℚ) :
    canExecuteCommand d e now = false
      ↔ (d.is_processing e = true
          ∨ now - d.last_command_time e < d.interval) := by
  rw [canExecuteCommand]
  cases h : d.is_processing e <;>
    by_cases h2 : now - d.last_command_time e < d.interval <;>
      simp [h, h2]

/-- C6: the gate's acquire check returns `false` exactly when a
command for the entity is in flight or less than the gate's interval
has elapsed since the entity's last command start; on `true` it marks
the entity in flight and records the start time; and for a fresh gate
with a 1-second interval, two acquires in immediate succession return
`true` then `false`, while a third after release and a wait of at
least the interval returns `true` again. -/
theorem command_gate_try_acquire :
    (∀ (d : CommandDebouncer) (e : String) (now : ℚ),
        (tryAcquire d e now).1 = false
          ↔ (d.is_processing e = true
              ∨ now - d.last_command_time e < d.interval))
    ∧ (∀ (d : CommandDebouncer) (e : String) (now : ℚ),
        (tryAcquire d e now).1 = true →
        (tryAcquire d e now).2.is_processing e = true
        ∧ (tryAcquire d e now).2.last_command_time e = now)
    ∧ (∀ (e : String) (t1 t2 t3 : ℚ), 1 ≤ t1 → t2 - t1 < 1 → 1 ≤ t3 - t1 →
        (tryAcquire (mkCommandDebouncer 1) e t1).1 = true
        ∧ (tryAcquire (tryAcquire (mkCommandDebouncer 1) e t1).2 e t2).1
            = false
        ∧ (tryAcquire (markCommandEnd
              (tryAcquire (mkCommandDebouncer 1) e t1).2 e) e t3).1
            = true) := by
  have hacc : ∀ (d : CommandDebouncer) (e : String) (now : ℚ),
      (tryAcquire d e now).1 = false
        ↔ (d.is_processing e = true
            ∨ now - d.last_command_time e < d.interval) := by
    intro d e now
    rw [tryAcquire_fst]
    exact canExecuteCommand_eq_false_iff d e now
  refine ⟨hacc, fun d e now h => ?_, fun e t1 t2 t3 h1 h2 h3 => ?_⟩
  · have hcan : canExecuteCommand d e now = true := by
      rw [← tryAcquire_fst]; exact h
    rw [tryAcquire, if_pos hcan]
    simp [markCommandStart]
  · have hfirst : (tryAcquire (mkCommandDebouncer 1) e t1).1 = true := by
      rw [tryAcquire_fst, canExecuteCommand]
      have : ¬t1 - (mkCommandDebouncer 1).last_command_time e
          < (mkCommandDebouncer 1).interval := by
        simp only [mkCommandDebouncer]
        rw [not_lt]
        linarith
      simp [mkCommandDebouncer] at this ⊢
      linarith
    have hstate : (tryAcquire (mkCommandDebouncer 1) e t1).2
        = markCommandStart (mkCommandDebouncer 1) e t1 := by
      rw [tryAcquire, if_pos (by rw [← tryAcquire_fst]; exact hfirst)]
    refine ⟨hfirst, ?_, ?_⟩
    · rw [hstate, (hacc _ _ _)]
      left
      simp [markCommandStart]
    · rw [hstate, tryAcquire_fst, canExecuteCommand]
      simp [markCommandEnd, markCommandStart, mkCommandDebouncer]
      linarith
/-- Witness for C6 at concrete inputs: entity `"s"`, interval 1, a
second acquire at the same instant as the first, and a third acquire
after release one second later. -/
theorem command_gate_try_acquire_witness :
    ((tryAcquire (mkCommandDebouncer 1) "s" 1).1 = true
      ∧ (tryAcquire (tryAcquire (mkCommandDebouncer 1) "s" 1).2 "s" 1).1
          = false
      ∧ (tryAcquire (markCommandEnd
            (tryAcquire (mkCommandDebouncer 1) "s" 1).2 "s") "s" 2).1
          = true)
    ∧ ((tryAcquire (mkCommandDebouncer 1) "s" 1).2.is_processing "s" = true
      ∧ (tryAcquire (mkCommandDebouncer 1) "s" 1).2.last_command_time "s"
          = 1) :=
  ⟨command_gate_try_acquire.2.2 "s" 1 1 2 (le_refl 1)
      (sub_lt_self 1 one_pos)
      (le_sub_iff_add_le.mpr (le_of_eq one_add_one_eq_two)),
   command_gate_try_acquire.2.1 (mkCommandDebouncer 1) "s" 1
      ((command_gate_try_acquire.2.2 "s" 1 1 2 (le_refl 1)
        (sub_lt_self 1 one_pos)
        (le_sub_iff_add_le.mpr (le_of_eq one_add_one_eq_two))).1)⟩

/-- C9: with `use_global=True` (the decorator's default, used by the
switch entities' `@debounce_command(interval=1.0)`), the decorator
gates through the module-level `_global_debouncer`, whose interval is
the constructor default `0.3`; the declared `interval` argument plays
no part, so after a command start and release the next command for the
entity is accepted exactly when at least 0.3 s — not `interval`
seconds — have elapsed. -/
theorem debounce_uses_global_interval :
    (∀ i : ℚ, debounceCommandDebouncer i true = globalDebouncer)
    ∧ switchTurnOnDebouncer.interval = 3 / 10
    ∧ (∀ (i : ℚ) (e : String) (t1 t2 : ℚ),
        canExecuteCommand
          (markCommandEnd
            (markCommandStart (debounceCommandDebouncer i true) e t1) e)
          e t2
          = decide (3 / 10 ≤ t2 - t1)) := by
  refine ⟨fun i => rfl, rfl, fun i e t1 t2 => ?_⟩
  rw [canExecuteCommand]
  simp only [debounceCommandDebouncer, if_pos, globalDebouncer,
    mkCommandDebouncer, markCommandStart, markCommandEnd]
  by_cases h : t2 - t1 < 3 / 10
  · simp [h, not_le.mpr h]
  · simp [h, not_lt.mp h]

/-! ## Theorems: optimistic window (C7) -/

/-- C7 counterexample, in the aliased regime that holds from platform
setup until the next REST refresh (the entity bound the very dict of
`coordinator.data` that `_update_device_from_websocket` mutates): an
`"on"` command at `t = 0` writes `l1_state = true` into the shared
dict, a stale `source: off` push frame then overwrites that same dict
with `false`, and the read at `t = 10` — inside the 30 s window —
returns `false`, the pushed value, not the command's optimistic
`true`: the stale push reached the "local copy" through the alias. -/
theorem optimistic_window_aliased_counterexample :
    (sendCommandSuccessState ⟨.aliased 0, none⟩
        [⟨"d1", "dev1", false, true, []⟩] "on" 0).2
      = [⟨"d1", "dev1", true, true, []⟩]
    ∧ (10 : ℚ) - 0 < 30
    ∧ isOnState
        (sendCommandSuccessState ⟨.aliased 0, none⟩
          [⟨"d1", "dev1", false, true, []⟩] "on" 0).1
        (updateDeviceFromWebsocket
          (sendCommandSuccessState ⟨.aliased 0, none⟩
            [⟨"d1", "dev1", false, true, []⟩] "on" 0).2
          ⟨"dev1", [⟨"source", "off"⟩], none, none⟩)
        10
      = false := by
  refine ⟨rfl, by norm_num, ?_⟩
  have h1 : (sendCommandSuccessState ⟨.aliased 0, none⟩
      [⟨"d1", "dev1", false, true, []⟩] "on" 0).1
      = ⟨.aliased 0, some 0⟩ := rfl
  have h2 : updateDeviceFromWebsocket
      (sendCommandSuccessState ⟨.aliased 0, none⟩
        [⟨"d1", "dev1", false, true, []⟩] "on" 0).2
      ⟨"dev1", [⟨"source", "off"⟩], none, none⟩
      = [⟨"d1", "dev1", false, true, []⟩] := rfl
  rw [h1, h2]
  simp only [isOnState]
  rw [if_pos (show (10 : ℚ) - 0 < 30 by norm_num)]
  rfl

/-- C7 amended: while the entity's `_device` is still aliased to the
coordinator store record (from setup until the next REST refresh),
an in-window read returns whatever that store record currently holds,
so a stale push frame inside the 30 s window overwrites the shared
copy and is surfaced; only once a REST refresh has detached the
entity's `_device` from the store does the claimed behavior hold:
in-window reads return the entity's detached local copy whatever the
store holds — including after any further push frame — and reads at
30 s or later return the canonical store value regardless of the
local copy. -/
theorem optimistic_window_reads_amended :
    (∀ (snapshot : DeviceRecord) (store : List DeviceRecord) (now t0 : ℚ),
        (now - t0 < 30 →
          isOnState ⟨.detached snapshot, some t0⟩ store now
            = snapshot.l1_state)
        ∧ (30 ≤ now - t0 →
          isOnState ⟨.detached snapshot, some t0⟩ store now
            = canonicalL1 store snapshot.id))
    ∧ (∀ (snapshot : DeviceRecord) (store : List DeviceRecord)
        (cmd : String) (t0 now : ℚ) (msg : WebsocketMsg),
        now - t0 < 30 →
        isOnState
          (sendCommandSuccessState ⟨.detached snapshot, none⟩ store
            cmd t0).1
          (updateDeviceFromWebsocket
            (sendCommandSuccessState ⟨.detached snapshot, none⟩ store
              cmd t0).2
            msg)
          now
          = (cmd == "on"))
    ∧ (∀ (idx : Nat) (store : List DeviceRecord) (d : DeviceRecord)
        (t0 now : ℚ),
        store[idx]? = some d → now - t0 < 30 →
        isOnState ⟨.aliased idx, some t0⟩ store now = d.l1_state) := by
  refine ⟨fun snapshot store now t0 => ⟨fun hw => ?_, fun hw => ?_⟩,
    fun snapshot store cmd t0 now msg hw => ?_,
    fun idx store d t0 now hd hw => ?_⟩
  · simp only [isOnState]
    rw [if_pos hw]
    rfl
  · simp only [isOnState]
    rw [if_neg (not_lt.mpr hw)]
    rfl
  · simp only [sendCommandSuccessState, writeLocalL1]
    simp only [isOnState]
    rw [if_pos hw]
    rfl
  · simp only [isOnState]
    rw [if_pos hw]
    simp only [localL1, boundDevice]
    rw [hd]

/-- Witness for the amended C7 theorem: a detached local `true` wins
over a store `false` at 10 s and loses to it at 31 s; a stale
`source: off` push cannot reach a detached copy inside the window;
and an aliased in-window read surfaces the store record's current
value. -/
theorem optimistic_window_reads_amended_witness :
    isOnState ⟨.detached ⟨"d1", "dev1", true, true, []⟩, some 0⟩
        [⟨"d1", "dev1", false, true, []⟩] 10 = true
    ∧ isOnState ⟨.detached ⟨"d1", "dev1", true, true, []⟩, some 0⟩
        [⟨"d1", "dev1", false, true, []⟩] 31
        = canonicalL1 [⟨"d1", "dev1", false, true, []⟩] "d1"
    ∧ isOnState
        (sendCommandSuccessState
          ⟨.detached ⟨"d1", "dev1", false, true, []⟩, none⟩
          [⟨"d1", "dev1", false, true, []⟩] "on" 0).1
        (updateDeviceFromWebsocket
          (sendCommandSuccessState
            ⟨.detached ⟨"d1", "dev1", false, true, []⟩, none⟩
            [⟨"d1", "dev1", false, true, []⟩] "on" 0).2
          ⟨"dev1", [⟨"source", "off"⟩], none, none⟩)
        10
        = ("on" == "on")
    ∧ isOnState ⟨.aliased 0, some 0⟩ [⟨"d1", "dev1", false, true, []⟩] 10
        = false :=
  ⟨((optimistic_window_reads_amended.1 ⟨"d1", "dev1", true, true, []⟩
      [⟨"d1", "dev1", false, true, []⟩] 10 0).1 (by simp; decide)),
   ((optimistic_window_reads_amended.1 ⟨"d1", "dev1", true, true, []⟩
      [⟨"d1", "dev1", false, true, []⟩] 31 0).2 (by simp; decide)),
   optimistic_window_reads_amended.2.1 ⟨"d1", "dev1", false, true, []⟩
      [⟨"d1", "dev1", false, true, []⟩] "on" 0 10
      ⟨"dev1", [⟨"source", "off"⟩], none, none⟩ (by simp; decide),
   optimistic_window_reads_amended.2.2 0
      [⟨"d1", "dev1", false, true, []⟩] ⟨"d1", "dev1", false, true, []⟩
      0 10 rfl (by simp; decide)⟩

/-! ## Theorems: REST signing (C8) -/

/-- Every character of the signing alphabet is alphanumeric. -/
theorem asciiLettersDigits_alphanum :
    ∀ c ∈ asciiLettersDigits, c.isAlphanum = true := by decide

/-- Indexing the signing alphabet with any default always yields one
of its characters or the alphanumeric default. -/
theorem getD_asciiLettersDigits_alphanum (k : Nat) :
    (asciiLettersDigits.getD k 'a').isAlphanum = true := by
  rw [List.getD_eq_getElem?_getD]
  cases h : asciiLettersDigits[k]? with
  | none => rfl
  | some c =>
      have hc : c ∈ asciiLettersDigits := by
        exact List.getElem?_mem h
      simpa using asciiLettersDigits_alphanum c hc

/-- C8: the `Sign` header value produced by `generate_sign` is the MD5
hex digest (abstracted as an arbitrary `md5Hex`) of the URL-encoded
query string of exactly the signing parameters
`{AppId, Mode, NonceStr, Timestamp, key}`; the `NonceStr` produced by
`generate_random_string` is a 16-character alphanumeric string; and
the mutating `ctrl` call's merged headers carry the `Sign` header plus
every one of those signing parameters flattened in. -/
theorem rest_sign_and_headers :
    (∀ (md5Hex : String → String) (nonce : String) (ts : Nat),
        generateSign md5Hex (getOpt nonce ts)
          = md5Hex (objectToQueryString (getOpt nonce ts)))
    ∧ (∀ randPick : Nat → Nat,
        (generateRandomString randPick 16).length = 16
        ∧ ∀ c ∈ (generateRandomString randPick 16).toList,
            c.isAlphanum = true)
    ∧ (∀ (md5Hex : String → String) (token nonce : String) (ts : Nat),
        ("Sign", md5Hex (objectToQueryString (getOpt nonce ts)))
          ∈ ctrlHeaders token (generateSign md5Hex (getOpt nonce ts))
              (getOpt nonce ts)
        ∧ ∀ p ∈ getOpt nonce ts,
            p ∈ ctrlHeaders token (generateSign md5Hex (getOpt nonce ts))
                (getOpt nonce ts)) := by
  refine ⟨fun _ _ _ => rfl, fun randPick => ⟨?_, ?_⟩,
    fun md5Hex token nonce ts => ⟨?_, fun p hp => ?_⟩⟩
  · simp [generateRandomString, String.length]
  · intro c hc
    simp only [generateRandomString, String.toList, String.mk,
      List.mem_map] at hc
    obtain ⟨i, _, rfl⟩ := hc
    exact getD_asciiLettersDigits_alphanum _
  · simp [ctrlHeaders, generateSign]
  · exact List.mem_append_right _ hp

/-- Witness for C8 at concrete inputs. -/
theorem rest_sign_and_headers_witness :
    generateSign (fun s => s) (getOpt "abcd1234abcd1234" 1700000000)
      = objectToQueryString (getOpt "abcd1234abcd1234" 1700000000)
    ∧ (generateRandomString (fun i => i) 16).length = 16
    ∧ ('a' : Char).isAlphanum = true
    ∧ ("NonceStr", "abcd1234abcd1234") ∈
        ctrlHeaders "tok"
          (generateSign (fun s => s) (getOpt "abcd1234abcd1234" 1700000000))
          (getOpt "abcd1234abcd1234" 1700000000) :=
  ⟨rest_sign_and_headers.1 (fun s => s) "abcd1234abcd1234" 1700000000,
   (rest_sign_and_headers.2.1 (fun i => i)).1,
   (rest_sign_and_headers.2.1 (fun i => i)).2 'a' (by decide),
   (rest_sign_and_headers.2.2 (fun s => s) "tok" "abcd1234abcd1234"
      1700000000).2 ("NonceStr", "abcd1234abcd1234") (by simp [getOpt])⟩

end MindorCloud
